import Mathlib

/-!
Shallow embedding of the career-assessment scoring and matching engine
(`backend/models/question.py`, `backend/models/department.py`, and the
answer validator of `backend/routers/results.py`).

Numbers: Python ints are modelled as `ℤ`, the one-decimal score values as
`ℚ`, and the `math.sqrt`-based match percentages as `ℝ`.  Python's `round`
(round-half-to-even) is modelled exactly on the rational/real value.
-/

namespace Career

/-- Python `round` to the nearest integer, halves to even (`roundHE`). -/
def roundHE {α : Type} [LinearOrderedField α] [FloorRing α] (x : α) : ℤ :=
  if x - (⌊x⌋ : α) < 1/2 then ⌊x⌋
  else if (1:α)/2 < x - (⌊x⌋ : α) then ⌊x⌋ + 1
  else if ⌊x⌋ % 2 = 0 then ⌊x⌋ else ⌊x⌋ + 1

/-- Python `round(x, 1)`: round to one decimal place. -/
def round1 {α : Type} [LinearOrderedField α] [FloorRing α] (x : α) : α :=
  (roundHE (10 * x) : α) / 10

/-- The fixed order of the 10 aptitude categories (`APTITUDE_NAMES`). -/
def APTITUDE_NAMES : List String :=
  ["언어능력", "논리/분석력", "창의력", "사회성/공감능력", "주도성/리더십",
   "신체-활동성", "예술감각/공간지각", "체계성/꼼꼼함", "탐구심", "문제해결능력"]

/-- A questionnaire entry (`Question` dataclass). -/
structure Question where
  id : ℤ
  question_text : String
  aptitude_type : String
  is_reverse : Bool
  tags : List String
deriving DecidableEq

instance : Inhabited Question := ⟨⟨0, "", "", false, []⟩⟩

/-- Source `Question.calculate_answer_score`: reverse-scored questions score `6 - answer`. -/
def calculateAnswerScore (q : Question) (answer : ℤ) : ℤ :=
  if q.is_reverse then 6 - answer else answer

/-- Source `QuestionSet._build_aptitude_map` looked up at one category: the indices of
the questions carrying that aptitude type, in catalog order. -/
def categoryIdxs (questions : List Question) (apt : String) : List ℕ :=
  (List.range questions.length).filter
    (fun i => (questions.getD i default).aptitude_type == apt)

/-- The corrected scores of the questions of one category (inner loop of
`QuestionSet.calculate_score`). -/
def categoryScores (questions : List Question) (answers : List ℤ) (apt : String) :
    List ℤ :=
  (categoryIdxs questions apt).map
    (fun i => calculateAnswerScore (questions.getD i default) (answers.getD i 0))

/-- The arithmetic mean of the corrected scores of one category. -/
def categoryMean (questions : List Question) (answers : List ℤ) (apt : String) : ℚ :=
  ((categoryScores questions answers apt).sum : ℚ) /
    ((categoryScores questions answers apt).length : ℚ)

/-- One entry of the aptitude vector: `0` for an empty category, otherwise the
mean rounded to one decimal (`QuestionSet.calculate_score`, step 1). -/
def categoryValue (questions : List Question) (answers : List ℤ) (apt : String) : ℚ :=
  if categoryIdxs questions apt = [] then 0
  else round1 (categoryMean questions answers apt)

/-- Source `QuestionSet._extract_interest_tags`: the tags of every question whose
corrected score is at least 4, deduplicated (Python builds `list(set(tags))`;
the set itself is modelled). -/
def extractInterestTags (questions : List Question) (answers : List ℤ) :
    Finset String :=
  (List.range answers.length).foldl
    (fun acc i =>
      let q := questions.getD i default
      if 4 ≤ calculateAnswerScore q (answers.getD i 0) ∧ q.tags ≠ [] then
        acc ∪ q.tags.toFinset
      else acc) ∅

/-- The value returned by `QuestionSet.calculate_score`. -/
structure ScoreResult where
  aptitude_scores : List ℚ
  interest_tags : Finset String
deriving DecidableEq

/-- Source `QuestionSet.calculate_score`: length check, then the 10 category values in
fixed order plus the interest tags. -/
def calculateScore (questions : List Question) (answers : List ℤ) :
    Except String ScoreResult :=
  if answers.length ≠ questions.length then
    .error "답변 개수가 맞지 않습니다"
  else
    .ok { aptitude_scores := APTITUDE_NAMES.map (categoryValue questions answers),
          interest_tags := extractInterestTags questions answers }

/-- Source `TestSubmission.validate_answers` (routers/results.py): exactly 20 answers,
each in [1,5]; the first violation raises. -/
def validateAnswers (answers : List ℤ) : Except String (List ℤ) :=
  if answers.length ≠ 20 then .error "답변은 정확히 20개여야 합니다"
  else
    match answers.find? (fun a => !(decide (1 ≤ a ∧ a ≤ 5))) with
    | some _ => .error "1-5 사이의 값이어야 합니다"
    | none => .ok answers

/-- Descending insertion: place `x` before the first element `y` with `y ≤ x`
under the boolean comparison `le`. -/
def insertDesc {α : Type} (le : α → α → Bool) (x : α) : List α → List α
  | [] => [x]
  | y :: ys => if le y x then x :: y :: ys else y :: insertDesc le x ys

/-- Stable descending sort (models Python `list.sort(..., reverse=True)`). -/
def sortDesc {α : Type} (le : α → α → Bool) : List α → List α
  | [] => []
  | x :: xs => insertDesc le x (sortDesc le xs)

/-- Python tuple comparison on `(score, index)` pairs. -/
def pairLeB (a b : ℚ × ℕ) : Bool :=
  decide (a.1 < b.1 ∨ (a.1 = b.1 ∧ a.2 ≤ b.2))

/-- The `personality_map.get(idx, "균형형")` lookup of
`QuestionSet.analyze_personality`. -/
def personalityLabel (i : ℕ) : String :=
  match i with
  | 0 => "언어형"
  | 1 => "논리형"
  | 2 => "창의형"
  | 3 => "사회형"
  | 4 => "리더형"
  | 5 => "활동형"
  | 6 => "예술형"
  | 7 => "체계형"
  | 8 => "탐구형"
  | 9 => "실행형"
  | _ => "균형형"

/-- Source `QuestionSet.analyze_personality`: length check, sort `(score, idx)` pairs
descending, label the index of the first pair. -/
def analyzePersonality (scores : List ℚ) : Except String String :=
  if scores.length ≠ 10 then .error "적성 점수는 10개여야 합니다"
  else
    let indexed := (List.range scores.length).map (fun i => (scores.getD i 0, i))
    let sorted := sortDesc pairLeB indexed
    .ok (personalityLabel (sorted.getD 0 (0, 0)).2)

/-- A department catalog entry (`Department` dataclass). -/
structure Department where
  id : ℤ
  name : String
  aptitude_scores : List ℤ
  description : String
  url : String
  tags : List String
  category : String
deriving DecidableEq

instance : Inhabited Department := ⟨⟨0, "", [], "", "", [], ""⟩⟩

/-- One annotated entry of the match list built by
`DepartmentMatcher.match_departments`. -/
structure MatchEntry where
  department : Department
  match_percentage : ℝ
  reason : String

/-- One result entry of `DepartmentMatcher.find_similar_by_tags`. -/
structure SimilarEntry where
  department : Department
  common_tags : Finset String
  tag_match_count : ℕ
deriving DecidableEq

/-- The dictionary returned by `DepartmentMatcher.match_departments`; each
worst entry carries its mismatch-reason string. -/
structure MatchOutput where
  top : List MatchEntry
  worst : List (MatchEntry × String)
  similar : List SimilarEntry

/-- The 1-5 → 1-10 rescaling (`user_scores_scaled = [score * 2 ...]`). -/
def scaledUser (user_scores : List ℚ) : List ℚ :=
  user_scores.map (fun s => s * 2)

/-- The summed squared differences inside
`DepartmentMatcher.calculate_match_percentage`. -/
def sqDistSum (user_scores : List ℚ) (dept_scores : List ℤ) : ℝ :=
  ((user_scores.zip dept_scores).map
    (fun p => ((p.1 : ℝ) - (p.2 : ℝ)) ^ 2)).sum

/-- Source `DepartmentMatcher.calculate_match_percentage`: normalized inverse
Euclidean distance, clamped to [0,100] and rounded to one decimal. -/
noncomputable def calculateMatchPercentage
    (user_scores : List ℚ) (dept_scores : List ℤ) : ℝ :=
  let distance := Real.sqrt (sqDistSum user_scores dept_scores)
  let maxDistance := Real.sqrt (10 * 9 ^ 2)
  let matchRate := (1 - distance / maxDistance) * 100
  round1 (max 0 (min 100 matchRate))

/-- Python float formatting of a one-decimal score value (e.g. `3.5`, `4.0`). -/
def formatScore (q : ℚ) : String :=
  if q < 0 then
    let m := (⌊10 * (-q)⌋).toNat
    "-" ++ toString (m / 10) ++ "." ++ toString (m % 10)
  else
    let m := (⌊10 * q⌋).toNat
    toString (m / 10) ++ "." ++ toString (m % 10)

/-- Source `DepartmentMatcher.generate_match_reason`: up to the first two categories
where both the rescaled user value and the department value are ≥ 7. -/
def generateMatchReason (user_scores : List ℚ) (dept : Department) : String :=
  let strong := ((user_scores.zip dept.aptitude_scores).enum.filter
      (fun p => decide (7 ≤ p.2.1 ∧ 7 ≤ (p.2.2 : ℚ)))).map
    (fun p => (APTITUDE_NAMES.getD p.1 "", round1 (p.2.1 / 2)))
  if strong = [] then "전반적으로 적성이 잘 맞습니다"
  else
    let strong2 := strong.take 2
    let txt := String.intercalate ", "
      (strong2.map (fun ns => ns.1 ++ "(" ++ formatScore ns.2 ++ "/5)"))
    "당신의 " ++ txt ++ "이(가) 뛰어나며 이 학과와 잘 맞습니다"

/-- The fixed per-category mismatch template table of
`DepartmentMatcher.generate_mismatch_reason`, with its `.get` fallback. -/
def reasonTemplate (name : String) : String :=
  if name = "신체-활동성" then "신체 활동이 많은 학과라 체력 부담이 있을 수 있어요"
  else if name = "예술감각/공간지각" then "미적 감각과 표현력이 중요한 학과예요"
  else if name = "사회성/공감능력" then "사람들과의 소통이 많아 부담을 느낄 수 있어요"
  else if name = "언어능력" then "언어 능력이 중요하게 요구되는 학과예요"
  else if name = "논리/분석력" then "논리적 사고와 분석이 많이 필요한 학과예요"
  else if name = "창의력" then "창의적 발상과 아이디어가 중요한 학과예요"
  else if name = "주도성/리더십" then "리더십과 주도적 역할이 많이 요구되는 학과예요"
  else if name = "체계성/꼼꼼함" then "세밀한 작업과 정확성이 중요한 학과예요"
  else if name = "탐구심" then "깊이 있는 연구와 탐구가 필요한 학과예요"
  else if name = "문제해결능력" then "복잡한 문제 해결이 자주 필요한 학과예요"
  else "학과 특성과 적성이 잘 맞지 않아요"

/-- Does position `p = (i, (user, dept))` qualify as a weakness
(`dept_score - user >= 5`)? -/
def weakAt (p : ℕ × (ℚ × ℤ)) : Bool :=
  decide (5 ≤ (p.2.2 : ℚ) - p.2.1)

/-- The rendered mismatch sentence for the weakness at position `p`. -/
def renderWeak (p : ℕ × (ℚ × ℤ)) : String :=
  let aptName := APTITUDE_NAMES.getD p.1 ""
  aptName ++ "(" ++ formatScore (round1 (p.2.1 / 2)) ++ "/5)이(가) 낮아 " ++
    reasonTemplate aptName

/-- Source `DepartmentMatcher.generate_mismatch_reason`: collect every weakness in
scan order, use the first one (or a generic sentence when none exists). -/
def generateMismatchReason (user_scores : List ℚ) (dept : Department) : String :=
  let weaknesses := (user_scores.zip dept.aptitude_scores).enum.filter weakAt
  match weaknesses with
  | [] => "전반적으로 적성이 맞지 않습니다"
  | w :: _ => renderWeak w

/-- The comparison key of the match sort (`key=lambda x: x["match_percentage"]`). -/
noncomputable def matchLeB (a b : MatchEntry) : Bool :=
  decide (a.match_percentage ≤ b.match_percentage)

/-- The comparison key of the similarity sort (`key=lambda x: x["tag_match_count"]`). -/
def simLeB (a b : SimilarEntry) : Bool :=
  decide (a.tag_match_count ≤ b.tag_match_count)

/-- The unsorted filtered list built by the loop of
`DepartmentMatcher.find_similar_by_tags`. -/
def eligibleSimilar (departments : List Department) (user_tags : List String)
    (exclude_ids : List ℤ) (min_common : ℕ) : List SimilarEntry :=
  ((departments.filter (fun d => !(decide (d.id ∈ exclude_ids)))).map
    (fun d => { department := d,
                common_tags := user_tags.toFinset ∩ d.tags.toFinset,
                tag_match_count := (user_tags.toFinset ∩ d.tags.toFinset).card })).filter
    (fun e => decide (min_common ≤ e.tag_match_count))

/-- Source `DepartmentMatcher.find_similar_by_tags`: filter then sort by overlap
count, descending. -/
def findSimilarByTags (departments : List Department) (user_tags : List String)
    (exclude_ids : List ℤ) (min_common : ℕ) : List SimilarEntry :=
  sortDesc simLeB (eligibleSimilar departments user_tags exclude_ids min_common)

/-- Python's `l[-n:]` slice (note `l[-0:]` is the whole list). -/
def takeLastPy {α : Type} (n : ℕ) (l : List α) : List α :=
  if n = 0 then l else l.drop (l.length - n)

/-- The annotated match list over the whole catalog (loop of
`DepartmentMatcher.match_departments`). -/
noncomputable def allMatches (departments : List Department)
    (scaled : List ℚ) : List MatchEntry :=
  departments.map (fun d =>
    { department := d,
      match_percentage := calculateMatchPercentage scaled d.aptitude_scores,
      reason := generateMatchReason scaled d })

/-- Source `DepartmentMatcher.match_departments`: length check, match and sort the
catalog, slice top-N and worst-N, annotate worst with mismatch reasons, and
add tag-based recommendations. -/
noncomputable def matchDepartments (departments : List Department)
    (user_scores : List ℚ) (user_tags : List String)
    (top_n worst_n : ℕ) : Except String MatchOutput :=
  if user_scores.length ≠ 10 then .error "사용자 점수는 10개여야 합니다"
  else
    let scaled := scaledUser user_scores
    let sorted := sortDesc matchLeB (allMatches departments scaled)
    let top := sorted.take top_n
    let worst := ((takeLastPy worst_n sorted).reverse).map
      (fun m => (m, generateMismatchReason scaled m.department))
    let similar :=
      if user_tags = [] then []
      else (findSimilarByTags departments user_tags
        (top.map (fun m => m.department.id)) 1).take 3
    .ok { top := top, worst := worst, similar := similar }

/-! ### Helper lemmas: the insertion sort -/

theorem insertDesc_perm {α : Type} (le : α → α → Bool) (x : α) (l : List α) :
    List.Perm (insertDesc le x l) (x :: l) := by
  induction l with
  | nil => simp [insertDesc]
  | cons y ys ih =>
    simp only [insertDesc]
    split
    · exact List.Perm.refl _
    · exact (ih.cons y).trans (List.Perm.swap x y ys)

theorem sortDesc_perm {α : Type} (le : α → α → Bool) (l : List α) :
    List.Perm (sortDesc le l) l := by
  induction l with
  | nil => exact List.Perm.refl _
  | cons x xs ih =>
    exact (insertDesc_perm le x (sortDesc le xs)).trans (ih.cons x)

theorem insertDesc_pairwise {α : Type} {le : α → α → Bool}
    (htot : ∀ a b, le a b = true ∨ le b a = true)
    (htrans : ∀ a b c, le a b = true → le b c = true → le a c = true)
    (x : α) {l : List α} (hl : l.Pairwise (fun a b => le b a = true)) :
    (insertDesc le x l).Pairwise (fun a b => le b a = true) := by
  induction l with
  | nil => simp [insertDesc]
  | cons y ys ih =>
    simp only [insertDesc]
    split
    · rename_i hyx
      refine List.Pairwise.cons ?_ hl
      intro z hz
      rcases List.mem_cons.mp hz with rfl | hz
      · exact hyx
      · exact htrans z y x ((List.pairwise_cons.mp hl).1 z hz) hyx
    · rename_i hyx
      have hxy : le x y = true := (htot x y).resolve_right (fun h => hyx h)
      refine List.Pairwise.cons ?_ (ih (List.pairwise_cons.mp hl).2)
      intro z hz
      have hz' := (insertDesc_perm le x ys).mem_iff.mp hz
      rcases List.mem_cons.mp hz' with rfl | hz'
      · exact hxy
      · exact (List.pairwise_cons.mp hl).1 z hz'

theorem sortDesc_pairwise {α : Type} {le : α → α → Bool}
    (htot : ∀ a b, le a b = true ∨ le b a = true)
    (htrans : ∀ a b c, le a b = true → le b c = true → le a c = true)
    (l : List α) :
    (sortDesc le l).Pairwise (fun a b => le b a = true) := by
  induction l with
  | nil => simp [sortDesc]
  | cons x xs ih => exact insertDesc_pairwise htot htrans x ih

/-- Every element of a descending-sorted list is below its head. -/
theorem sortDesc_head_max {α : Type} {le : α → α → Bool}
    (htot : ∀ a b, le a b = true ∨ le b a = true)
    {l : List α} (hl : l.Pairwise (fun a b => le b a = true))
    {h d : α} (hh : l.headD d = h) (hne : l ≠ []) :
    ∀ z ∈ l, le z h = true := by
  cases l with
  | nil => exact absurd rfl hne
  | cons a as =>
    simp only [List.headD_cons] at hh
    subst hh
    intro z hz
    rcases List.mem_cons.mp hz with rfl | hz
    · exact (htot z z).elim id id
    · exact (List.pairwise_cons.mp hl).1 z hz

/-! ### Helper lemmas: Python rounding -/

theorem roundHE_cases {α : Type} [LinearOrderedField α] [FloorRing α] (x : α) :
    roundHE x = ⌊x⌋ ∨ roundHE x = ⌊x⌋ + 1 := by
  unfold roundHE
  split_ifs <;> simp

theorem roundHE_ge {α : Type} [LinearOrderedField α] [FloorRing α]
    {x : α} {a : ℤ} (ha : (a : α) ≤ x) : a ≤ roundHE x := by
  have hfl : a ≤ ⌊x⌋ := Int.le_floor.mpr ha
  rcases roundHE_cases x with h | h <;> omega

theorem roundHE_le {α : Type} [LinearOrderedField α] [FloorRing α]
    {x : α} {b : ℤ} (hb : x ≤ b) : roundHE x ≤ b := by
  have hfl : ⌊x⌋ ≤ b := by
    have := Int.floor_le_floor (α := α) hb
    simpa using this
  unfold roundHE
  split_ifs with h1 h2 h3
  · exact hfl
  · have hlt : (⌊x⌋ : α) < x := by
      have : (0:α) < 1/2 := by norm_num
      nlinarith [Int.floor_le x]
    have : ⌊x⌋ < b := by
      have : (⌊x⌋ : α) < (b : α) := lt_of_lt_of_le hlt hb
      exact_mod_cast this
    omega
  · exact hfl
  · have hge : (1:α)/2 ≤ x - (⌊x⌋ : α) := le_of_not_lt h1
    have hlt : (⌊x⌋ : α) < x := by nlinarith
    have : ⌊x⌋ < b := by
      have : (⌊x⌋ : α) < (b : α) := lt_of_lt_of_le hlt hb
      exact_mod_cast this
    omega

theorem roundHE_intCast {α : Type} [LinearOrderedField α] [FloorRing α] (n : ℤ) :
    roundHE ((n : α)) = n := by
  unfold roundHE
  rw [Int.floor_intCast]
  simp

theorem round1_ge {α : Type} [LinearOrderedField α] [FloorRing α]
    {x : α} {a : ℤ} (ha : (a : α) ≤ x) : (a : α) ≤ round1 x := by
  have h10 : ((10 * a : ℤ) : α) ≤ 10 * x := by push_cast; linarith
  have := roundHE_ge h10
  have hcast : ((10 * a : ℤ) : α) ≤ (roundHE (10 * x) : α) := by exact_mod_cast this
  unfold round1
  rw [le_div_iff₀ (by norm_num : (0:α) < 10)]
  push_cast at hcast ⊢
  linarith

theorem round1_le {α : Type} [LinearOrderedField α] [FloorRing α]
    {x : α} {b : ℤ} (hb : x ≤ b) : round1 x ≤ (b : α) := by
  have h10 : 10 * x ≤ ((10 * b : ℤ) : α) := by push_cast; linarith
  have := roundHE_le h10
  have hcast : (roundHE (10 * x) : α) ≤ ((10 * b : ℤ) : α) := by exact_mod_cast this
  unfold round1
  rw [div_le_iff₀ (by norm_num : (0:α) < 10)]
  push_cast at hcast ⊢
  linarith

theorem round1_intCast {α : Type} [LinearOrderedField α] [FloorRing α] (n : ℤ) :
    round1 ((n : α)) = n := by
  unfold round1
  have : (10 : α) * (n : α) = ((10 * n : ℤ) : α) := by push_cast; ring
  rw [this, roundHE_intCast]
  push_cast
  ring

/-! ### Helper lemmas: list means -/

theorem mean_bounds {l : List ℤ} {a b : ℤ} (hne : l ≠ [])
    (h : ∀ x ∈ l, a ≤ x ∧ x ≤ b) :
    (a : ℚ) ≤ (l.sum : ℚ) / (l.length : ℚ) ∧
      (l.sum : ℚ) / (l.length : ℚ) ≤ (b : ℚ) := by
  have hlen : 0 < (l.length : ℚ) := by
    have : 0 < l.length := List.length_pos.mpr hne
    exact_mod_cast this
  have hub : l.sum ≤ l.length • b := List.sum_le_card_nsmul l b (fun x hx => (h x hx).2)
  have hlb : l.length • a ≤ l.sum := List.card_nsmul_le_sum l a (fun x hx => (h x hx).1)
  rw [nsmul_eq_mul] at hub hlb
  have hub' : (l.sum : ℚ) ≤ (l.length : ℚ) * (b : ℚ) := by exact_mod_cast hub
  have hlb' : (l.length : ℚ) * (a : ℚ) ≤ (l.sum : ℚ) := by exact_mod_cast hlb
  constructor
  · rw [le_div_iff₀ hlen]; linarith
  · rw [div_le_iff₀ hlen]; linarith

/-- Every corrected score of a category is in [1,5] when the answers are. -/
theorem categoryScores_mem_bounds {questions : List Question} {answers : List ℤ}
    (hlen : answers.length = questions.length)
    (hval : ∀ a ∈ answers, 1 ≤ a ∧ a ≤ 5) {apt : String} :
    ∀ x ∈ categoryScores questions answers apt, 1 ≤ x ∧ x ≤ 5 := by
  intro x hx
  obtain ⟨i, hi, hxeq⟩ := List.mem_map.mp hx
  rw [categoryIdxs] at hi
  have hirange : i ∈ List.range questions.length := (List.mem_filter.mp hi).1
  have hilt : i < answers.length := by
    rw [hlen]; exact List.mem_range.mp hirange
  have hmem : answers.getD i 0 ∈ answers := by
    rw [List.getD_eq_getElem answers 0 hilt]
    exact List.getElem_mem hilt
  have hbound := hval _ hmem
  rw [← hxeq]
  unfold calculateAnswerScore
  split <;> omega

/-! ### Claim theorems -/

/-- C7: for every answer `a` in [1,5], a reverse-scored question satisfies
`correctedScore(a) + correctedScore(6-a) = 6`, and a non-reverse question
satisfies `correctedScore(a) = a`. -/
theorem C7_corrected_score (q : Question) (a : ℤ) (h1 : 1 ≤ a) (h5 : a ≤ 5) :
    (q.is_reverse = true →
      calculateAnswerScore q a + calculateAnswerScore q (6 - a) = 6) ∧
    (q.is_reverse = false → calculateAnswerScore q a = a) := by
  constructor <;> intro hr <;> simp [calculateAnswerScore, hr]

theorem C7_corrected_score_witness :
    ((⟨1, "q1", "언어능력", true, []⟩ : Question).is_reverse = true →
      calculateAnswerScore ⟨1, "q1", "언어능력", true, []⟩ 2 +
        calculateAnswerScore ⟨1, "q1", "언어능력", true, []⟩ (6 - 2) = 6) ∧
    ((⟨1, "q1", "언어능력", true, []⟩ : Question).is_reverse = false →
      calculateAnswerScore ⟨1, "q1", "언어능력", true, []⟩ 2 = 2) :=
  C7_corrected_score ⟨1, "q1", "언어능력", true, []⟩ 2 (by decide) (by decide)

/-- C1 counterexample: a full-length answer list containing 6 is NOT rejected
by `QuestionSet.calculate_score`; it returns an aptitude vector. -/
theorem C1_counterexample :
    calculateScore [⟨2, "q2", "언어능력", false, []⟩] [6] =
      .ok { aptitude_scores := [6, 0, 0, 0, 0, 0, 0, 0, 0, 0],
            interest_tags := ∅ } := by
  have hidx : categoryIdxs [⟨2, "q2", "언어능력", false, []⟩] "언어능력" = [0] := by
    decide
  have hsc : categoryScores [⟨2, "q2", "언어능력", false, []⟩] [6] "언어능력" = [6] := by
    decide
  have hval : categoryValue [⟨2, "q2", "언어능력", false, []⟩] [6] "언어능력" = 6 := by
    rw [categoryValue, if_neg (by rw [hidx]; simp), categoryMean, hsc]
    have h6 : ((([6] : List ℤ).sum : ℚ)) / ((([6] : List ℤ).length : ℚ)) = ((6:ℤ):ℚ) := by
      norm_num
    rw [h6, round1_intCast]
    norm_num
  unfold calculateScore
  rw [if_neg (by decide)]
  refine congrArg Except.ok ?_
  have htags : extractInterestTags [⟨2, "q2", "언어능력", false, []⟩] [6] = ∅ := by
    decide
  refine congrArg₂ ScoreResult.mk ?_ htags
  simp only [APTITUDE_NAMES, List.map_cons, List.map_nil, hval]
  refine congrArg₂ List.cons rfl ?_
  norm_num [categoryValue]
  refine ⟨?_, ?_, ?_, ?_, ?_, ?_, ?_, ?_, ?_⟩ <;>
    · intro h; exact absurd (by decide) h

/-- C1 (amended): the out-of-range rejection is performed by the request
validator `TestSubmission.validate_answers`, not by
`QuestionSet.calculate_score`; the latter only checks the length and returns
an aptitude vector for any equal-length answer sequence. -/
theorem C1_range_validation :
    (∀ answers : List ℤ, answers.length = 20 →
      (∃ a ∈ answers, a < 1 ∨ 5 < a) →
      ∃ msg, validateAnswers answers = .error msg) ∧
    (∀ (questions : List Question) (answers : List ℤ),
      answers.length = questions.length →
      ∃ r, calculateScore questions answers = .ok r) := by
  constructor
  · intro answers hlen ⟨a, ha, hbad⟩
    unfold validateAnswers
    rw [if_neg (by omega)]
    cases hfind : answers.find? (fun a => !(decide (1 ≤ a ∧ a ≤ 5))) with
    | some v => exact ⟨_, rfl⟩
    | none =>
      exfalso
      have := List.find?_eq_none.mp hfind a ha
      simp only [Bool.not_eq_true', decide_eq_false_iff_not, not_not] at this
      omega
  · intro questions answers hlen
    refine ⟨{ aptitude_scores := APTITUDE_NAMES.map (categoryValue questions answers),
              interest_tags := extractInterestTags questions answers }, ?_⟩
    unfold calculateScore
    rw [if_neg (by omega)]

theorem C1_range_validation_witness :
    ∃ msg, validateAnswers
      [6, 3, 3, 3, 3, 3, 3, 3, 3, 3, 3, 3, 3, 3, 3, 3, 3, 3, 3, 3] =
        .error msg :=
  C1_range_validation.1 _ (by decide) (by decide)

/-- C2: for valid-length answers all in [1,5], `QuestionSet.calculate_score`
returns a vector of length exactly 10 where an empty category yields 0 and
every other entry is the one-decimal rounding of the mean corrected
category score and lies in [1,5]. -/
theorem C2_score_vector (questions : List Question) (answers : List ℤ)
    (hlen : answers.length = questions.length)
    (hval : ∀ a ∈ answers, 1 ≤ a ∧ a ≤ 5) :
    ∃ r, calculateScore questions answers = .ok r ∧
      r.aptitude_scores.length = 10 ∧
      ∀ i, (hi : i < 10) →
        (categoryIdxs questions (APTITUDE_NAMES.getD i "") = [] ∧
          r.aptitude_scores.getD i 0 = 0) ∨
        (categoryIdxs questions (APTITUDE_NAMES.getD i "") ≠ [] ∧
          r.aptitude_scores.getD i 0 =
            round1 (categoryMean questions answers (APTITUDE_NAMES.getD i "")) ∧
          1 ≤ r.aptitude_scores.getD i 0 ∧ r.aptitude_scores.getD i 0 ≤ 5) := by
  refine ⟨{ aptitude_scores := APTITUDE_NAMES.map (categoryValue questions answers),
            interest_tags := extractInterestTags questions answers }, ?_, ?_, ?_⟩
  · unfold calculateScore
    rw [if_neg (by omega)]
  · simp [APTITUDE_NAMES]
  · intro i hi
    have hlen10 : APTITUDE_NAMES.length = 10 := by simp [APTITUDE_NAMES]
    have hmaplen : i < (APTITUDE_NAMES.map (categoryValue questions answers)).length := by
      simpa [hlen10] using hi
    have hget : (APTITUDE_NAMES.map (categoryValue questions answers)).getD i 0 =
        categoryValue questions answers (APTITUDE_NAMES.getD i "") := by
      rw [List.getD_eq_getElem _ _ hmaplen,
        List.getD_eq_getElem _ _ (by simpa [hlen10] using hi), List.getElem_map]
    rw [hget]
    by_cases hempty : categoryIdxs questions (APTITUDE_NAMES.getD i "") = []
    · left
      exact ⟨hempty, by rw [categoryValue, if_pos hempty]⟩
    · right
      have hveq : categoryValue questions answers (APTITUDE_NAMES.getD i "") =
          round1 (categoryMean questions answers (APTITUDE_NAMES.getD i "")) := by
        rw [categoryValue, if_neg hempty]
      have hscne : categoryScores questions answers (APTITUDE_NAMES.getD i "") ≠ [] := by
        intro hcon
        exact hempty (by simpa [categoryScores] using congrArg List.length hcon)
      have hbounds := mean_bounds (a := 1) (b := 5) hscne
        (categoryScores_mem_bounds hlen hval)
      have hmean := hbounds
      rw [show ((1:ℤ):ℚ) = (1:ℚ) by norm_num,
        show ((5:ℤ):ℚ) = (5:ℚ) by norm_num] at hmean
      have hge : (1:ℚ) ≤ round1 (categoryMean questions answers (APTITUDE_NAMES.getD i "")) := by
        have := round1_ge (a := 1)
          (x := categoryMean questions answers (APTITUDE_NAMES.getD i ""))
          (by rw [categoryMean]; exact_mod_cast hmean.1)
        simpa using this
      have hle : round1 (categoryMean questions answers (APTITUDE_NAMES.getD i "")) ≤ 5 := by
        have := round1_le (b := 5)
          (x := categoryMean questions answers (APTITUDE_NAMES.getD i ""))
          (by rw [categoryMean]; exact_mod_cast hmean.2)
        simpa using this
      exact ⟨hempty, hveq, by rw [hveq]; exact hge, by rw [hveq]; exact hle⟩

theorem C2_score_vector_witness :
    ∃ r, calculateScore [⟨2, "q2", "언어능력", false, []⟩] [3] = .ok r ∧
      r.aptitude_scores.length = 10 ∧
      ∀ i, (hi : i < 10) →
        (categoryIdxs [⟨2, "q2", "언어능력", false, []⟩] (APTITUDE_NAMES.getD i "") = [] ∧
          r.aptitude_scores.getD i 0 = 0) ∨
        (categoryIdxs [⟨2, "q2", "언어능력", false, []⟩] (APTITUDE_NAMES.getD i "") ≠ [] ∧
          r.aptitude_scores.getD i 0 =
            round1 (categoryMean [⟨2, "q2", "언어능력", false, []⟩] [3]
              (APTITUDE_NAMES.getD i "")) ∧
          1 ≤ r.aptitude_scores.getD i 0 ∧ r.aptitude_scores.getD i 0 ≤ 5) :=
  C2_score_vector [⟨2, "q2", "언어능력", false, []⟩] [3] (by decide) (by decide)

/-- C3: `QuestionSet.analyze_personality` errors when the vector length is not
10; otherwise it returns the label of an index carrying the maximum value, and
among tied maxima the highest index wins. -/
theorem C3_personality (scores : List ℚ) :
    (scores.length ≠ 10 → ∃ msg, analyzePersonality scores = .error msg) ∧
    (scores.length = 10 → ∃ i, i < 10 ∧
      analyzePersonality scores = .ok (personalityLabel i) ∧
      (∀ j, j < 10 → scores.getD j 0 ≤ scores.getD i 0) ∧
      (∀ j, j < 10 → scores.getD j 0 = scores.getD i 0 → j ≤ i)) := by
  constructor
  · intro h
    exact ⟨_, by unfold analyzePersonality; rw [if_pos h]⟩
  · intro h10
    have hperm : List.Perm
        (sortDesc pairLeB ((List.range scores.length).map (fun i => (scores.getD i 0, i))))
        ((List.range scores.length).map (fun i => (scores.getD i 0, i))) :=
      sortDesc_perm _ _
    have hlensort :
        (sortDesc pairLeB ((List.range scores.length).map (fun i => (scores.getD i 0, i)))).length = 10 := by
      rw [hperm.length_eq]; simp [h10]
    obtain ⟨hd, tl, hcons⟩ := List.exists_cons_of_ne_nil
      (List.length_pos.mp (by rw [hlensort]; norm_num) :
        sortDesc pairLeB ((List.range scores.length).map (fun i => (scores.getD i 0, i))) ≠ [])
    have htot : ∀ a b : ℚ × ℕ, pairLeB a b = true ∨ pairLeB b a = true := by
      intro a b
      simp only [pairLeB, decide_eq_true_eq]
      rcases lt_trichotomy a.1 b.1 with h | h | h
      · exact Or.inl (Or.inl h)
      · rcases Nat.le_total a.2 b.2 with h2 | h2
        · exact Or.inl (Or.inr ⟨h, h2⟩)
        · exact Or.inr (Or.inr ⟨h.symm, h2⟩)
      · exact Or.inr (Or.inl h)
    have hpair :
        (sortDesc pairLeB ((List.range scores.length).map (fun i => (scores.getD i 0, i)))).Pairwise
          (fun a b => pairLeB b a = true) := by
      apply sortDesc_pairwise htot
      intro a b c hab hbc
      simp only [pairLeB, decide_eq_true_eq] at hab hbc ⊢
      rcases hab with h | ⟨he, hn⟩ <;> rcases hbc with h' | ⟨he', hn'⟩
      · exact Or.inl (h.trans h')
      · exact Or.inl (he' ▸ h)
      · exact Or.inl (he ▸ h')
      · exact Or.inr ⟨he.trans he', hn.trans hn'⟩
    have hdmem : hd ∈ (List.range scores.length).map (fun i => (scores.getD i 0, i)) :=
      hperm.mem_iff.mp (hcons ▸ List.mem_cons_self _ _)
    obtain ⟨i, hirange, hieq⟩ := List.mem_map.mp hdmem
    have hi10 : i < 10 := by rw [← h10]; exact List.mem_range.mp hirange
    have hmax : ∀ z ∈ sortDesc pairLeB
        ((List.range scores.length).map (fun i => (scores.getD i 0, i))),
        pairLeB z hd = true := by
      intro z hz
      rw [hcons] at hz hpair
      rcases List.mem_cons.mp hz with rfl | hz'
      · exact (htot z z).elim id id
      · exact (List.pairwise_cons.mp hpair).1 z hz'
    have hmax' : ∀ j, j < 10 → pairLeB (scores.getD j 0, j) hd = true := by
      intro j hj
      apply hmax
      apply hperm.mem_iff.mpr
      exact List.mem_map.mpr ⟨j, List.mem_range.mpr (by rw [h10]; exact hj), rfl⟩
    refine ⟨i, hi10, ?_, ?_, ?_⟩
    · show analyzePersonality scores = .ok (personalityLabel i)
      unfold analyzePersonality
      rw [if_neg (by omega)]
      show Except.ok (personalityLabel
        ((sortDesc pairLeB ((List.range scores.length).map
          (fun i => (scores.getD i 0, i)))).getD 0 (0, 0)).2) = _
      refine congrArg Except.ok (congrArg personalityLabel ?_)
      rw [hcons, List.getD_cons_zero, ← hieq]
    · intro j hj
      have := hmax' j hj
      simp only [pairLeB, decide_eq_true_eq] at this
      rw [← hieq] at this
      rcases this with h | ⟨he, _⟩
      · exact le_of_lt h
      · exact le_of_eq he
    · intro j hj heq
      have := hmax' j hj
      simp only [pairLeB, decide_eq_true_eq] at this
      rw [← hieq] at this
      rcases this with h | ⟨_, hn⟩
      · rw [heq] at h; exact absurd h (lt_irrefl _)
      · exact hn

theorem C3_personality_witness :
    (([3, 1, 4, 1, 5, 2, 5, 3, 2, 1] : List ℚ).length ≠ 10 →
      ∃ msg, analyzePersonality [3, 1, 4, 1, 5, 2, 5, 3, 2, 1] = .error msg) ∧
    (([3, 1, 4, 1, 5, 2, 5, 3, 2, 1] : List ℚ).length = 10 → ∃ i, i < 10 ∧
      analyzePersonality [3, 1, 4, 1, 5, 2, 5, 3, 2, 1] = .ok (personalityLabel i) ∧
      (∀ j, j < 10 →
        ([3, 1, 4, 1, 5, 2, 5, 3, 2, 1] : List ℚ).getD j 0 ≤
          ([3, 1, 4, 1, 5, 2, 5, 3, 2, 1] : List ℚ).getD i 0) ∧
      (∀ j, j < 10 →
        ([3, 1, 4, 1, 5, 2, 5, 3, 2, 1] : List ℚ).getD j 0 =
          ([3, 1, 4, 1, 5, 2, 5, 3, 2, 1] : List ℚ).getD i 0 → j ≤ i)) :=
  C3_personality [3, 1, 4, 1, 5, 2, 5, 3, 2, 1]

/-- Equal vectors have summed squared difference zero. -/
theorem sqDistSum_eq_zero {u : List ℚ} {d : List ℤ}
    (h : u.map (fun (q : ℚ) => (q : ℝ)) = d.map (fun (n : ℤ) => (n : ℝ))) :
    sqDistSum u d = 0 := by
  induction u generalizing d with
  | nil =>
    cases d with
    | nil => simp [sqDistSum]
    | cons y ys => simp at h
  | cons x xs ih =>
    cases d with
    | nil => simp at h
    | cons y ys =>
      simp only [List.map_cons, List.cons.injEq] at h
      simp only [sqDistSum, List.zip_cons_cons, List.map_cons, List.sum_cons]
      rw [h.1]
      have := ih h.2
      simp only [sqDistSum] at this
      rw [this]
      ring

/-- C5: `DepartmentMatcher.calculate_match_percentage` is the clamped, rounded
normalized inverse Euclidean distance; it always lies in [0,100], and equal
vectors give exactly 100. -/
theorem C5_match_percentage (u : List ℚ) (d : List ℤ) :
    calculateMatchPercentage u d =
      round1 (max 0 (min 100
        ((1 - Real.sqrt (sqDistSum u d) / Real.sqrt (10 * 9 ^ 2)) * 100))) ∧
    0 ≤ calculateMatchPercentage u d ∧ calculateMatchPercentage u d ≤ 100 ∧
    (u.map (fun (q : ℚ) => (q : ℝ)) = d.map (fun (n : ℤ) => (n : ℝ)) →
      calculateMatchPercentage u d = 100) := by
  have hlo : (0:ℝ) ≤ max 0 (min 100
      ((1 - Real.sqrt (sqDistSum u d) / Real.sqrt (10 * 9 ^ 2)) * 100)) :=
    le_max_left _ _
  have hhi : max 0 (min 100
      ((1 - Real.sqrt (sqDistSum u d) / Real.sqrt (10 * 9 ^ 2)) * 100)) ≤ 100 :=
    max_le (by norm_num) (min_le_left _ _)
  refine ⟨rfl, ?_, ?_, ?_⟩
  · have := round1_ge (a := 0) (x := max 0 (min 100
      ((1 - Real.sqrt (sqDistSum u d) / Real.sqrt (10 * 9 ^ 2)) * 100))) (by simpa using hlo)
    simpa [calculateMatchPercentage] using this
  · have := round1_le (b := 100) (x := max 0 (min 100
      ((1 - Real.sqrt (sqDistSum u d) / Real.sqrt (10 * 9 ^ 2)) * 100))) (by simpa using hhi)
    simpa [calculateMatchPercentage] using this
  · intro heq
    have hzero := sqDistSum_eq_zero heq
    show round1 (max 0 (min 100
      ((1 - Real.sqrt (sqDistSum u d) / Real.sqrt (10 * 9 ^ 2)) * 100))) = 100
    rw [hzero, Real.sqrt_zero, zero_div, sub_zero, one_mul, min_self,
      max_eq_right (by norm_num : (0:ℝ) ≤ 100)]
    have := round1_intCast (α := ℝ) 100
    simpa using this

theorem C5_match_percentage_witness :
    calculateMatchPercentage [1, 2, 3, 4, 5, 5, 4, 3, 2, 1]
        [2, 4, 6, 8, 10, 10, 8, 6, 4, 2] =
      round1 (max 0 (min 100
        ((1 - Real.sqrt (sqDistSum [1, 2, 3, 4, 5, 5, 4, 3, 2, 1]
              [2, 4, 6, 8, 10, 10, 8, 6, 4, 2]) / Real.sqrt (10 * 9 ^ 2)) * 100))) ∧
    0 ≤ calculateMatchPercentage [1, 2, 3, 4, 5, 5, 4, 3, 2, 1]
        [2, 4, 6, 8, 10, 10, 8, 6, 4, 2] ∧
    calculateMatchPercentage [1, 2, 3, 4, 5, 5, 4, 3, 2, 1]
        [2, 4, 6, 8, 10, 10, 8, 6, 4, 2] ≤ 100 ∧
    (([1, 2, 3, 4, 5, 5, 4, 3, 2, 1] : List ℚ).map (fun (q : ℚ) => (q : ℝ)) =
        ([2, 4, 6, 8, 10, 10, 8, 6, 4, 2] : List ℤ).map (fun (n : ℤ) => (n : ℝ)) →
      calculateMatchPercentage [1, 2, 3, 4, 5, 5, 4, 3, 2, 1]
          [2, 4, 6, 8, 10, 10, 8, 6, 4, 2] = 100) :=
  C5_match_percentage [1, 2, 3, 4, 5, 5, 4, 3, 2, 1] [2, 4, 6, 8, 10, 10, 8, 6, 4, 2]

/-- Lemma: `generateMismatchReason` unfolded to its filter-and-match form. -/
theorem generateMismatchReason_eq (user_scores : List ℚ) (dept : Department) :
    generateMismatchReason user_scores dept =
      match (user_scores.zip dept.aptitude_scores).enum.filter weakAt with
      | [] => "전반적으로 적성이 맞지 않습니다"
      | w :: _ => renderWeak w := rfl

/-- C6: `DepartmentMatcher.generate_mismatch_reason` renders the first category
in scan order with `deptValue - userValue >= 5` using the fixed template table
(`renderWeak`/`reasonTemplate`), and returns the generic overall-mismatch
string when no category qualifies. -/
theorem C6_mismatch_reason (user_scores : List ℚ) (dept : Department)
    (hu : user_scores.length = 10) (hd : dept.aptitude_scores.length = 10) :
    ((∀ p ∈ (user_scores.zip dept.aptitude_scores).enum, weakAt p = false) →
      generateMismatchReason user_scores dept = "전반적으로 적성이 맞지 않습니다") ∧
    (∀ p, ((user_scores.zip dept.aptitude_scores).enum).find? weakAt = some p →
      generateMismatchReason user_scores dept = renderWeak p) := by
  constructor
  · intro hall
    rw [generateMismatchReason_eq]
    rw [List.filter_eq_nil.mpr (fun a ha => by simp [hall a ha])]
  · intro p hp
    have hhead : ((user_scores.zip dept.aptitude_scores).enum.filter weakAt).head? =
        some p := by
      rw [List.filter_head?]
      exact hp
    rw [generateMismatchReason_eq]
    cases hf : (user_scores.zip dept.aptitude_scores).enum.filter weakAt with
    | nil => rw [hf] at hhead; simp at hhead
    | cons a as =>
      rw [hf] at hhead
      simp only [List.head?_cons, Option.some.injEq] at hhead
      rw [hhead]

theorem C6_mismatch_reason_witness :
    ((∀ p ∈ (([2, 2, 2, 2, 2, 2, 2, 2, 2, 2] : List ℚ).zip
        ([10, 1, 1, 1, 1, 1, 1, 1, 1, 1] : List ℤ)).enum, weakAt p = false) →
      generateMismatchReason [2, 2, 2, 2, 2, 2, 2, 2, 2, 2]
        ⟨2, "국어국문학과", [10, 1, 1, 1, 1, 1, 1, 1, 1, 1], "", "", ["문학"], "인문사회"⟩ =
        "전반적으로 적성이 맞지 않습니다") ∧
    (∀ p, ((([2, 2, 2, 2, 2, 2, 2, 2, 2, 2] : List ℚ).zip
        ([10, 1, 1, 1, 1, 1, 1, 1, 1, 1] : List ℤ)).enum).find? weakAt = some p →
      generateMismatchReason [2, 2, 2, 2, 2, 2, 2, 2, 2, 2]
        ⟨2, "국어국문학과", [10, 1, 1, 1, 1, 1, 1, 1, 1, 1], "", "", ["문학"], "인문사회"⟩ =
        renderWeak p) :=
  C6_mismatch_reason [2, 2, 2, 2, 2, 2, 2, 2, 2, 2]
    ⟨2, "국어국문학과", [10, 1, 1, 1, 1, 1, 1, 1, 1, 1], "", "", ["문학"], "인문사회"⟩
    (by decide) (by decide)

/-- Lemma: `matchDepartments` unfolded past its length check. -/
theorem matchDepartments_eq (departments : List Department)
    (user_scores : List ℚ) (user_tags : List String) (top_n worst_n : ℕ)
    (h10 : user_scores.length = 10) :
    matchDepartments departments user_scores user_tags top_n worst_n =
      .ok { top := (sortDesc matchLeB (allMatches departments (scaledUser user_scores))).take top_n,
            worst := ((takeLastPy worst_n
                (sortDesc matchLeB (allMatches departments (scaledUser user_scores)))).reverse).map
              (fun m => (m, generateMismatchReason (scaledUser user_scores) m.department)),
            similar :=
              if user_tags = [] then []
              else (findSimilarByTags departments user_tags
                (((sortDesc matchLeB (allMatches departments (scaledUser user_scores))).take
                  top_n).map (fun m => m.department.id)) 1).take 3 } := by
  unfold matchDepartments
  rw [if_neg (by omega)]

theorem matchLeB_total (a b : MatchEntry) : matchLeB a b = true ∨ matchLeB b a = true := by
  simp only [matchLeB, decide_eq_true_eq]
  exact le_total _ _

theorem matchLeB_trans (a b c : MatchEntry) (hab : matchLeB a b = true)
    (hbc : matchLeB b c = true) : matchLeB a c = true := by
  simp only [matchLeB, decide_eq_true_eq] at hab hbc ⊢
  exact hab.trans hbc

/-- Projecting the mismatch annotation away recovers the underlying list. -/
theorem annotate_map_fst {α β : Type} (f : α → β) (l : List α) :
    (l.map (fun m => (m, f m))).map Prod.fst = l := by
  rw [List.map_map, show (Prod.fst ∘ fun m : α => (m, f m)) = id from rfl,
    List.map_id]

/-- C4: for any valid user vector, the top list of
`DepartmentMatcher.match_departments` is the first `top_n` of the catalog
sorted descending by match percentage, and the worst list is the last
`worst_n` of that same sorted sequence reversed (hence ascending, worst
first). -/
theorem C4_ranking (departments : List Department) (user_scores : List ℚ)
    (user_tags : List String) (top_n worst_n : ℕ)
    (h10 : user_scores.length = 10) (hw : 1 ≤ worst_n) :
    ∃ res sorted,
      matchDepartments departments user_scores user_tags top_n worst_n = .ok res ∧
      List.Perm sorted (allMatches departments (scaledUser user_scores)) ∧
      sorted.Pairwise (fun a b => b.match_percentage ≤ a.match_percentage) ∧
      res.top = sorted.take top_n ∧
      res.worst.map Prod.fst = (sorted.drop (sorted.length - worst_n)).reverse ∧
      (res.worst.map Prod.fst).Pairwise
        (fun a b => a.match_percentage ≤ b.match_percentage) := by
  have hperm := sortDesc_perm matchLeB (allMatches departments (scaledUser user_scores))
  have hpw : (sortDesc matchLeB (allMatches departments (scaledUser user_scores))).Pairwise
      (fun a b => b.match_percentage ≤ a.match_percentage) :=
    (sortDesc_pairwise matchLeB_total matchLeB_trans _).imp
      (fun h => by simpa [matchLeB] using h)
  have hfst : (((takeLastPy worst_n
        (sortDesc matchLeB (allMatches departments (scaledUser user_scores)))).reverse).map
        (fun m => (m, generateMismatchReason (scaledUser user_scores) m.department))).map
        Prod.fst =
      ((sortDesc matchLeB (allMatches departments (scaledUser user_scores))).drop
        ((sortDesc matchLeB (allMatches departments (scaledUser user_scores))).length -
          worst_n)).reverse :=
    (annotate_map_fst _ _).trans
      (congrArg List.reverse (by rw [takeLastPy, if_neg (by omega)]))
  have hasc : (((sortDesc matchLeB (allMatches departments (scaledUser user_scores))).drop
        ((sortDesc matchLeB (allMatches departments (scaledUser user_scores))).length -
          worst_n)).reverse).Pairwise
      (fun a b => a.match_percentage ≤ b.match_percentage) := by
    rw [List.pairwise_reverse]
    exact hpw.sublist (List.drop_sublist _ _)
  exact ⟨_, _, matchDepartments_eq departments user_scores user_tags top_n worst_n h10,
    hperm, hpw, rfl, hfst, hfst.symm ▸ hasc⟩

theorem C4_ranking_witness :
    ∃ res sorted,
      matchDepartments [⟨1, "컴퓨터공학과", [6, 6, 6, 6, 6, 6, 6, 6, 6, 6], "", "", ["코딩"], "이공계"⟩]
        [3, 3, 3, 3, 3, 3, 3, 3, 3, 3] ["코딩"] 3 3 = .ok res ∧
      List.Perm sorted (allMatches
        [⟨1, "컴퓨터공학과", [6, 6, 6, 6, 6, 6, 6, 6, 6, 6], "", "", ["코딩"], "이공계"⟩]
        (scaledUser [3, 3, 3, 3, 3, 3, 3, 3, 3, 3])) ∧
      sorted.Pairwise (fun a b => b.match_percentage ≤ a.match_percentage) ∧
      res.top = sorted.take 3 ∧
      res.worst.map Prod.fst = (sorted.drop (sorted.length - 3)).reverse ∧
      (res.worst.map Prod.fst).Pairwise
        (fun a b => a.match_percentage ≤ b.match_percentage) :=
  C4_ranking [⟨1, "컴퓨터공학과", [6, 6, 6, 6, 6, 6, 6, 6, 6, 6], "", "", ["코딩"], "이공계"⟩]
    [3, 3, 3, 3, 3, 3, 3, 3, 3, 3] ["코딩"] 3 3 (by decide) (by decide)

/-- C9: matching against an empty catalog raises no error and returns empty
top, worst and similar lists. -/
theorem C9_empty_catalog (user_scores : List ℚ) (user_tags : List String)
    (h10 : user_scores.length = 10) :
    matchDepartments [] user_scores user_tags 3 3 =
      .ok { top := [], worst := [], similar := [] } := by
  rw [matchDepartments_eq [] user_scores user_tags 3 3 h10]
  refine congrArg Except.ok ?_
  have hall : allMatches [] (scaledUser user_scores) = [] := rfl
  rw [hall]
  simp [sortDesc, takeLastPy, findSimilarByTags, eligibleSimilar]

theorem C9_empty_catalog_witness :
    matchDepartments [] [1, 1, 1, 1, 1, 1, 1, 1, 1, 1] ["코딩"] 3 3 =
      .ok { top := [], worst := [], similar := [] } :=
  C9_empty_catalog [1, 1, 1, 1, 1, 1, 1, 1, 1, 1] ["코딩"] (by decide)

/-- C10: when the catalog is non-empty but shorter than `top_n + worst_n`,
the top and worst lists of `DepartmentMatcher.match_departments` overlap: some
department appears in both. -/
theorem C10_overlap (departments : List Department) (user_scores : List ℚ)
    (user_tags : List String) (top_n worst_n : ℕ)
    (h10 : user_scores.length = 10) (hne : departments ≠ [])
    (hlt : departments.length < top_n + worst_n)
    (ht : 1 ≤ top_n) (hw : 1 ≤ worst_n) :
    ∃ res, matchDepartments departments user_scores user_tags top_n worst_n = .ok res ∧
      ∃ e1 ∈ res.top, ∃ e2 ∈ res.worst, e1.department = e2.1.department := by
  have hmde := matchDepartments_eq departments user_scores user_tags top_n worst_n h10
  set S := sortDesc matchLeB (allMatches departments (scaledUser user_scores)) with hS
  have hlenS : S.length = departments.length := by
    rw [hS, (sortDesc_perm _ _).length_eq]
    simp [allMatches]
  have hLpos : 1 ≤ S.length := by
    rw [hlenS]
    exact List.length_pos.mpr hne
  have hlt' : S.length < top_n + worst_n := by omega
  have hm1 : min top_n S.length ≤ top_n := Nat.min_le_left _ _
  have hm2 : min top_n S.length ≤ S.length := Nat.min_le_right _ _
  have hm3 : 1 ≤ min top_n S.length := le_min ht hLpos
  have hm4 : S.length - worst_n ≤ min top_n S.length - 1 := by
    rcases Nat.le_total top_n S.length with h | h
    · rw [Nat.min_eq_left h]; omega
    · rw [Nat.min_eq_right h]; omega
  have hiS : min top_n S.length - 1 < S.length := by omega
  have hitake : min top_n S.length - 1 < (S.take top_n).length := by
    rw [List.length_take]; omega
  have hidrop : (min top_n S.length - 1) - (S.length - worst_n) <
      (S.drop (S.length - worst_n)).length := by
    rw [List.length_drop]; omega
  have he1 : (S.take top_n)[min top_n S.length - 1] =
      S[min top_n S.length - 1] := List.getElem_take ..
  have he2 : (S.drop (S.length - worst_n))[(min top_n S.length - 1) -
      (S.length - worst_n)] = S[min top_n S.length - 1] := by
    rw [List.getElem_drop]
    congr 1
    omega
  have hmem1 : S[min top_n S.length - 1] ∈ S.take top_n :=
    he1 ▸ List.getElem_mem hitake
  have hmem2 : S[min top_n S.length - 1] ∈ S.drop (S.length - worst_n) :=
    he2 ▸ List.getElem_mem hidrop
  have hTL : takeLastPy worst_n S = S.drop (S.length - worst_n) := by
    rw [takeLastPy, if_neg (by omega)]
  rw [hTL] at hmde
  refine ⟨_, hmde, ?_⟩
  exact ⟨S[min top_n S.length - 1], hmem1,
    (S[min top_n S.length - 1],
      generateMismatchReason (scaledUser user_scores)
        (S[min top_n S.length - 1]).department),
    List.mem_map_of_mem _ (List.mem_reverse.mpr hmem2), rfl⟩

theorem C10_overlap_witness :
    ∃ res, matchDepartments
        [⟨1, "컴퓨터공학과", [6, 6, 6, 6, 6, 6, 6, 6, 6, 6], "", "", ["코딩"], "이공계"⟩]
        [3, 3, 3, 3, 3, 3, 3, 3, 3, 3] ["코딩"] 3 3 = .ok res ∧
      ∃ e1 ∈ res.top, ∃ e2 ∈ res.worst, e1.department = e2.1.department :=
  C10_overlap
    [⟨1, "컴퓨터공학과", [6, 6, 6, 6, 6, 6, 6, 6, 6, 6], "", "", ["코딩"], "이공계"⟩]
    [3, 3, 3, 3, 3, 3, 3, 3, 3, 3] ["코딩"] 3 3 (by decide)
    (List.cons_ne_nil _ _) (by decide) (by decide) (by decide)

theorem simLeB_total (a b : SimilarEntry) : simLeB a b = true ∨ simLeB b a = true := by
  simp only [simLeB, decide_eq_true_eq]
  exact Nat.le_total _ _

theorem simLeB_trans (a b c : SimilarEntry) (hab : simLeB a b = true)
    (hbc : simLeB b c = true) : simLeB a c = true := by
  simp only [simLeB, decide_eq_true_eq] at hab hbc ⊢
  exact hab.trans hbc

/-- C8: `DepartmentMatcher.find_similar_by_tags` (at the default minimum of one
common tag) returns exactly the non-excluded departments sharing at least one
tag, each with its common-tag set and overlap count, sorted descending by
overlap count. -/
theorem C8_similar_by_tags (departments : List Department)
    (user_tags : List String) (exclude_ids : List ℤ) :
    (∀ e ∈ findSimilarByTags departments user_tags exclude_ids 1,
      e.department.id ∉ exclude_ids ∧
      e.common_tags = user_tags.toFinset ∩ e.department.tags.toFinset ∧
      e.tag_match_count = e.common_tags.card ∧ 1 ≤ e.tag_match_count) ∧
    List.Perm (findSimilarByTags departments user_tags exclude_ids 1)
      (eligibleSimilar departments user_tags exclude_ids 1) ∧
    (findSimilarByTags departments user_tags exclude_ids 1).Pairwise
      (fun a b => b.tag_match_count ≤ a.tag_match_count) := by
  refine ⟨?_, sortDesc_perm _ _, ?_⟩
  · intro e he
    have he' : e ∈ eligibleSimilar departments user_tags exclude_ids 1 :=
      (sortDesc_perm _ _).mem_iff.mp he
    rw [eligibleSimilar] at he'
    obtain ⟨hemap, hcount⟩ := List.mem_filter.mp he'
    obtain ⟨d, hd, hde⟩ := List.mem_map.mp hemap
    have hdfil := (List.mem_filter.mp hd).2
    simp only [Bool.not_eq_true', decide_eq_false_iff_not] at hdfil
    subst hde
    refine ⟨hdfil, rfl, rfl, ?_⟩
    simpa using of_decide_eq_true hcount
  · exact (sortDesc_pairwise simLeB_total simLeB_trans _).imp
      (fun h => by simpa [simLeB] using h)

end Career
